import Mathlib

/-!
Shallow embedding of the quiz application (quiz_data.py, quiz_core.py).

Python strings are modelled as lists of characters (`Str`).  Narrowings:
Python `str.lower` and `str.strip` operate on the full Unicode tables; here
`Char.toLower` and `Char.isWhitespace` cover the ASCII behaviour, which is
the range the command and whitespace claims exercise.  `str.isdigit` and
`int()` are modelled by `pyCharIsDigit`/`pyCharDecimalVal`, which represent
all three behavioural classes of the real tables: non-digits, decimal
digits carrying a value, and digit characters without a decimal value, on
which `int()` raises an uncaught `ValueError`.
-/

abbrev Str := List Char

/-- The sanitization policy (quiz_data.py, constructor argument). -/
inductive Policy
  | reject
  | remove
  | replace
deriving DecidableEq

/-- A JSON-ish field value of a question object.  `vStr` is a Python string,
`vList` a Python list, `vInt` a Python int (other scalar types are not
exercised by any claim and behave like `vInt`: not a str, not a list,
no `len`). -/
inductive Value
  | vStr (s : Str)
  | vList (elems : List Value)
  | vInt (n : Int)

instance : Inhabited Value := ⟨Value.vInt 0⟩

/-- A question object: a Python dict in insertion order. -/
abbrev Qdict := List (Str × Value)

/-- Unhandled Python exception escaping the loader: `len()` of an object
without a length, or `re.search` applied to a non-string, both raise
`TypeError`, which `load_quiz_data` does not catch (it catches only
`IOError` and `json.JSONDecodeError`). -/
inductive LoadErr
  | typeError
deriving DecidableEq

def maxTextLength : Nat := 1000

def isDisallowedChar (c : Char) : Bool := c = '<' || c = '>'

/-- `disallowed_patterns.search(text)`: does the text contain a `<` or `>`. -/
def hasDisallowed (s : Str) : Bool := s.any isDisallowedChar

def qmark : Char := '?'

/-- quiz_data.py, `QuizData.sanitize_text` (lines 97-121), on a string.
Out-of-bounds length: `None` under reject, otherwise `text[:max_length]`
returned at once (no character substitution happens on that path).
In-bounds text containing `<` or `>`: `None` under reject, per-character
deletion under remove, per-character `?` substitution under replace. -/
def sanitizeText (policy : Policy) (text : Str) : Option Str :=
  if 1 ≤ text.length ∧ text.length ≤ maxTextLength then
    if hasDisallowed text then
      match policy with
      | Policy.reject => none
      | Policy.remove => some (text.filter (fun c => !isDisallowedChar c))
      | Policy.replace => some (text.map (fun c => if isDisallowedChar c then qmark else c))
    else some text
  else if policy = Policy.reject then none else some (text.take maxTextLength)

/-- The Python `sanitize_text` applied to an arbitrary value, as happens to
every element of a list-valued field in `sanitize_question`.  `len()` works
on strings and lists but raises `TypeError` on ints; `re.search` raises
`TypeError` on any non-string; list slicing works, so an out-of-bounds list
is truncated and returned with no substitution ever attempted. -/
def sanitizeTextValue (policy : Policy) (v : Value) : Except LoadErr (Option Value) :=
  match v with
  | Value.vStr s => Except.ok ((sanitizeText policy s).map Value.vStr)
  | Value.vList xs =>
      if 1 ≤ xs.length ∧ xs.length ≤ maxTextLength then
        Except.error LoadErr.typeError
      else if policy = Policy.reject then Except.ok none
      else Except.ok (some (Value.vList (xs.take maxTextLength)))
  | Value.vInt _ => Except.error LoadErr.typeError

/-- The element loop of `sanitize_question` over a list-valued field: each
element goes through `sanitize_text`; the first `None` rejects the whole
question, an exception propagates. -/
def sanitizeElems (policy : Policy) : List Value → Except LoadErr (Option (List Value))
  | [] => Except.ok (some [])
  | v :: vs =>
      match sanitizeTextValue policy v with
      | Except.error e => Except.error e
      | Except.ok none => Except.ok none
      | Except.ok (some w) =>
          match sanitizeElems policy vs with
          | Except.error e => Except.error e
          | Except.ok none => Except.ok none
          | Except.ok (some ws) => Except.ok (some (w :: ws))

/-- quiz_data.py, `QuizData.sanitize_question` (lines 69-95): every
string-valued field through `sanitize_text`, every element of a list-valued
field through `sanitize_text`, all other fields pass through unchanged.
`none` is the rejected question. -/
def sanitizeQuestion (policy : Policy) : Qdict → Except LoadErr (Option Qdict)
  | [] => Except.ok (some [])
  | (k, v) :: rest =>
      match v with
      | Value.vStr s =>
          match sanitizeText policy s with
          | none => Except.ok none
          | some s2 =>
              match sanitizeQuestion policy rest with
              | Except.error e => Except.error e
              | Except.ok none => Except.ok none
              | Except.ok (some restQ) => Except.ok (some ((k, Value.vStr s2) :: restQ))
      | Value.vList xs =>
          match sanitizeElems policy xs with
          | Except.error e => Except.error e
          | Except.ok none => Except.ok none
          | Except.ok (some ws) =>
              match sanitizeQuestion policy rest with
              | Except.error e => Except.error e
              | Except.ok none => Except.ok none
              | Except.ok (some restQ) => Except.ok (some ((k, Value.vList ws) :: restQ))
      | Value.vInt n =>
          match sanitizeQuestion policy rest with
          | Except.error e => Except.error e
          | Except.ok none => Except.ok none
          | Except.ok (some restQ) => Except.ok (some ((k, Value.vInt n) :: restQ))

def keyQuestion : Str := ("question").toList
def keyOptions : Str := ("options").toList
def keyCorrect : Str := ("correct").toList
def keyTitle : Str := ("title").toList
def keySubtitle : Str := ("subtitle").toList

/-- Python `dict` lookup on the association-list model. -/
def dictGet (q : Qdict) (k : Str) : Option Value :=
  match q.find? (fun p => p.1 == k) with
  | some p => some p.2
  | none => none

/-- quiz_data.py, `QuizData.validate_question` (lines 50-67): the three
required fields are present, `options` is a non-empty list, `correct` is an
int with `1 <= correct <= len(options)`. -/
def validateQuestion (q : Qdict) : Bool :=
  match dictGet q keyQuestion, dictGet q keyOptions, dictGet q keyCorrect with
  | some _, some (Value.vList opts), some (Value.vInt c) =>
      !opts.isEmpty && (decide (1 ≤ c) && decide (c ≤ (opts.length : Int)))
  | _, _, _ => false

/-- The question loop of `load_quiz_data` (lines 38-43): sanitize, then keep
the question only when the sanitized result is truthy (not `None` and not an
empty dict) and validates; otherwise log a warning and drop it.  An
exception raised inside `sanitize_question` propagates and aborts the load. -/
def loadQuestionsAux (policy : Policy) : List Qdict → List Qdict → Except LoadErr (List Qdict)
  | acc, [] => Except.ok acc
  | acc, raw :: rest =>
      match sanitizeQuestion policy raw with
      | Except.error e => Except.error e
      | Except.ok none => loadQuestionsAux policy acc rest
      | Except.ok (some sq) =>
          if !sq.isEmpty && validateQuestion sq then
            loadQuestionsAux policy (acc ++ [sq]) rest
          else
            loadQuestionsAux policy acc rest

/-- quiz_data.py, `QuizData.load_quiz_data` (lines 27-48), questions part:
run the question loop, then truncate to `quiz_length` when the cap is
positive and exceeded. -/
def loadQuestions (policy : Policy) (quizLength : Nat) (raws : List Qdict) :
    Except LoadErr (List Qdict) :=
  match loadQuestionsAux policy [] raws with
  | Except.error e => Except.error e
  | Except.ok qs =>
      Except.ok (if 0 < quizLength ∧ quizLength < qs.length then qs.take quizLength else qs)

/-- Top-level quiz metadata, stored verbatim by `load_quiz_data`
(lines 32-36).  The source stores whatever `data.get` returns; the claims
only exercise string metadata, modelled here as optional strings. -/
structure QuizInfo where
  title : Option Str
  subtitle : Option Str
  description : Option Str

/-- The parsed source document: optional metadata strings plus the raw
question list (the questions key, default empty). -/
structure QuizDoc where
  title : Option Str
  subtitle : Option Str
  description : Option Str
  questions : List Qdict

/-- Lines 32-36 of quiz_data.py: the metadata dict is built directly from
the document fields; no sanitization call appears on this path. -/
def loadQuizInfo (doc : QuizDoc) : QuizInfo :=
  { title := doc.title, subtitle := doc.subtitle, description := doc.description }

/-- `QuizData.load_quiz_data` on an already-parsed document: metadata
verbatim, questions through the sanitize-validate loop. -/
def loadQuizData (policy : Policy) (quizLength : Nat) (doc : QuizDoc) :
    Except LoadErr (QuizInfo × List Qdict) :=
  match loadQuestions policy quizLength doc.questions with
  | Except.error e => Except.error e
  | Except.ok qs => Except.ok (loadQuizInfo doc, qs)

/-! ## Command Interpreter (quiz_core.py, `CommandProcessor`, lines 65-116) -/

/-- The canonical command names. -/
inductive Command
  | restart
  | skip
  | quit
  | help
deriving DecidableEq

/-- Python `str.lower` (ASCII range). -/
def pyLower (s : Str) : Str := s.map Char.toLower

/-- The alias table of `CommandProcessor.__init__`, in declaration order. -/
def commands : List (Command × List Str) :=
  [(Command.restart, [("restart").toList, ("r").toList]),
   (Command.skip, [("skip").toList, ("s").toList, ("n").toList, ("next").toList]),
   (Command.quit, [("quit").toList, ("q").toList]),
   (Command.help, [("help").toList, ("h").toList, ("?").toList])]

/-- `CommandProcessor.is_command`: lowercase the input, scan the alias lists
with the Python `in` membership test. -/
def isCommand (inputStr : Str) : Bool :=
  commands.any (fun p => decide (pyLower inputStr ∈ p.2))

/-- `CommandProcessor.process_command`: lowercase the input, return the first
command whose alias list contains it, `none` otherwise. -/
def processCommand (inputStr : Str) : Option Command :=
  match commands.find? (fun p => decide (pyLower inputStr ∈ p.2)) with
  | some p => some p.1
  | none => none

/-- `CommandProcessor.get_help_text`. -/
def joinSep (sep : Str) : List Str → Str
  | [] => []
  | [x] => x
  | x :: xs => x ++ sep ++ joinSep sep xs

def getHelpText : Str :=
  ("Available commands:\n").toList ++
    (commands.map
      (fun p => ("  ").toList ++ joinSep ((", ").toList) p.2 ++ ("\n").toList)).flatten

/-! ## Session Engine (quiz_core.py, `Quiz`, lines 118-228)

The I/O channel is the file/transcript mode of `EnvironmentHandler`: the
input lines are a list, each read echoes `prompt + line` to the output sink
and returns `line.strip()`; running out of lines is fatal (`sys.exit(1)`).
Output lines are collected in order; terminal newlines added by `print` are
omitted. -/

def pyStrip (s : Str) : Str :=
  ((s.dropWhile Char.isWhitespace).reverse.dropWhile Char.isWhitespace).reverse

/-- The Unicode decimal-digit value of a character (category Nd): the
characters `int()` accepts, each contributing its value.  Modelled exactly
on ASCII `0`-`9` and, representative of the non-ASCII decimal ranges, the
Arabic-Indic digits U+0660-U+0669; the remaining Nd ranges of the real
table behave the same way (value `some`) and add nothing a claim
distinguishes. -/
def pyCharDecimalVal (c : Char) : Option Nat :=
  if 48 ≤ c.toNat ∧ c.toNat ≤ 57 then some (c.toNat - 48)
  else if 1632 ≤ c.toNat ∧ c.toNat ≤ 1641 then some (c.toNat - 1632)
  else none

/-- Superscript two, U+00B2: a character with the Unicode Digit property but
no decimal value, so `str.isdigit` accepts it while `int()` raises
`ValueError`. -/
def sup2 : Char := Char.ofNat 178

/-- Does `str.isdigit` accept the character: every decimal digit, plus the
digit-without-decimal-value characters, represented here by the Latin-1
superscripts U+00B9, U+00B2, U+00B3.  The three behavioural classes of the
real table (non-digit; decimal digit with a value; digit `int()` rejects)
are all represented. -/
def pyCharIsDigit (c : Char) : Bool :=
  (pyCharDecimalVal c).isSome ||
    (c.toNat == 178 || c.toNat == 179 || c.toNat == 185)

/-- Python `str.isdigit`: non-empty and every character a digit. -/
def pyIsDigit (s : Str) : Bool := !s.isEmpty && s.all pyCharIsDigit

/-- Python `int()` on a string that passed `isdigit` (so it is non-empty
and has no sign, whitespace or underscores): succeeds iff every character
has a decimal value, folding the values in base 10; a digit character
without a decimal value (such as a superscript) makes it raise
`ValueError`, modelled as `none`. -/
def pyInt (s : Str) : Option Nat :=
  s.foldl
    (fun acc c =>
      match acc, pyCharDecimalVal c with
      | some n, some d => some (n * 10 + d)
      | _, _ => none)
    (some 0)

def natStr (n : Nat) : Str := (Nat.repr n).toList

def intStr (n : Int) : Str :=
  if n < 0 then ("-").toList ++ natStr n.natAbs else natStr n.natAbs

def squote : Char := Char.ofNat 39

mutual

/-- Python `repr` of a field value, used by `str` on lists (quoting of
embedded quotes and escapes is not exercised by any claim). -/
def pyRepr : Value → Str
  | Value.vStr s => squote :: (s ++ [squote])
  | Value.vInt n => intStr n
  | Value.vList xs => ("[").toList ++ pyReprSep xs ++ ("]").toList

/-- Comma-separated `repr`s of the elements of a list value. -/
def pyReprSep : List Value → Str
  | [] => []
  | [v] => pyRepr v
  | v :: vs => pyRepr v ++ (", ").toList ++ pyReprSep vs

end

/-- Python `str` of a field value as interpolated by an f-string. -/
def pyStr : Value → Str
  | Value.vStr s => s
  | Value.vInt n => intStr n
  | Value.vList xs => pyRepr (Value.vList xs)

/-- Python truthiness of a field value, as used on the optional title and
subtitle fields. -/
def pyTruthy : Value → Bool
  | Value.vStr s => !s.isEmpty
  | Value.vInt n => n != 0
  | Value.vList xs => !xs.isEmpty

/-- The options field of an accepted question.  For a question that
passes `validate_question` this is exactly the option list; on other
dicts Python would raise, which no claim exercises (engine theorems carry a
`validateQuestion` hypothesis). -/
def qOptions (q : Qdict) : List Value :=
  match dictGet q keyOptions with
  | some (Value.vList xs) => xs
  | _ => []

def qOptionCount (q : Qdict) : Nat := (qOptions q).length

/-- The correct field of an accepted question (see `qOptions`). -/
def qCorrect (q : Qdict) : Int :=
  match dictGet q keyCorrect with
  | some (Value.vInt c) => c
  | _ => 0

/-- The prompt-text field of an accepted question (see `qOptions`). -/
def qText (q : Qdict) : Value := (dictGet q keyQuestion).getD (Value.vStr [])

/-- Mutable state of the `Quiz` object: the (shuffled) question list it owns
through `quiz_data.questions`, the three tallies and the cursor.
`shuffleCount` counts the `random.shuffle` calls made so far, so that an
externally supplied family of permutations can stand in for the RNG. -/
structure SState where
  questions : List Qdict
  correctAnswers : Nat
  incorrectQuestions : List Qdict
  skippedQuestions : List Qdict
  questionIndex : Nat
  shuffleCount : Nat

/-- quiz_core.py, `Quiz.restart_quiz` (lines 209-215): zero the tallies and
the cursor, reshuffle the question list in place. -/
def restartQuiz (shuffle : Nat → List Qdict → List Qdict) (st : SState) : SState :=
  { questions := shuffle st.shuffleCount st.questions
    correctAnswers := 0
    incorrectQuestions := []
    skippedQuestions := []
    questionIndex := 0
    shuffleCount := st.shuffleCount + 1 }

/-- What one pass of the answer-acquisition loop body did.  `crashed` is an
uncaught `ValueError` from `int(user_input)`: nothing in `ask_question`,
`start` or the host catches it, so the run aborts (the traceback goes to
stderr, not the output channel). -/
inductive Ctl
  | reprompt
  | advanced
  | restarted
  | quitRun
  | crashed
deriving DecidableEq

def promptEcho (line : Str) : Str := ("Your answer (or command): ").toList ++ line

def msgInvalidSize : Str := ("Invalid input size. Please try again.").toList
def msgSkipped : Str := ("Question skipped.").toList
def msgRestarting : Str := ("Restarting quiz...").toList
def msgExiting : Str := ("Exiting quiz.").toList
def msgUnknownCommand : Str :=
  ("Unknown command. Type ").toList ++ [squote] ++ ("help").toList ++ [squote] ++
    (" for available commands.").toList
def msgInvalidInput : Str :=
  ("Invalid input. Please enter a valid option number or command.").toList
def msgInvalidOption : Str := ("Invalid option number. Please try again.").toList
def msgCorrect : Str := ("Correct!").toList
def msgIncorrect : Str := ("Incorrect.").toList

/-- One iteration of the inner `while True` loop of `Quiz.ask_question`
(lines 171-207): read a line (the channel echoes the prompt and the line and
returns it stripped; the loop strips again), check the size bound, dispatch
commands, otherwise validate and score a numeric answer.  Returns the state
after the iteration, the output chunks it wrote, and how it ended. -/
def askStep (shuffle : Nat → List Qdict → List Qdict) (q : Qdict) (st : SState)
    (line : Str) : SState × List Str × Ctl :=
  let userInput := pyStrip (pyStrip line)
  let echo := promptEcho line
  if 1 ≤ userInput.length ∧ userInput.length ≤ 100 then
    if isCommand userInput then
      match processCommand userInput with
      | some Command.help => (st, [echo, getHelpText], Ctl.reprompt)
      | some Command.skip =>
          ({ st with skippedQuestions := st.skippedQuestions ++ [q] },
           [echo, msgSkipped], Ctl.advanced)
      | some Command.restart =>
          (restartQuiz shuffle st, [echo, msgRestarting], Ctl.restarted)
      | some Command.quit => (st, [echo, msgExiting], Ctl.quitRun)
      | none => (st, [echo, msgUnknownCommand], Ctl.reprompt)
    else if pyIsDigit userInput then
      match pyInt userInput with
      | none => (st, [echo], Ctl.crashed)
      | some n =>
          let optionNumber : Int := (n : Int)
          if 1 ≤ optionNumber ∧ optionNumber ≤ (qOptionCount q : Int) then
            if optionNumber = qCorrect q then
              ({ st with correctAnswers := st.correctAnswers + 1 },
               [echo, msgCorrect], Ctl.advanced)
            else
              ({ st with incorrectQuestions := st.incorrectQuestions ++ [q] },
               [echo, msgIncorrect], Ctl.advanced)
          else
            (st, [echo, msgInvalidOption], Ctl.reprompt)
    else
      (st, [echo, msgInvalidInput], Ctl.reprompt)
  else
    (st, [echo, msgInvalidSize], Ctl.reprompt)

/-- How `Quiz.ask_question` returned control. -/
inductive AskOutcome
  | advanced
  | restarted
  | quitRun
  | crashed
  | exhausted
deriving DecidableEq

structure AskResult where
  state : SState
  outputs : List Str
  remaining : List Str
  outcome : AskOutcome

/-- The inner loop of `Quiz.ask_question`: iterate `askStep` until a
non-reprompt iteration; exhausting the input lines is the fatal
`sys.exit(1)` inside `EnvironmentHandler.input`. -/
def askLoop (shuffle : Nat → List Qdict → List Qdict) (q : Qdict) :
    SState → List Str → AskResult
  | st, [] => ⟨st, [], [], AskOutcome.exhausted⟩
  | st, line :: rest =>
      match askStep shuffle q st line with
      | (st2, outs, Ctl.reprompt) =>
          let r := askLoop shuffle q st2 rest
          ⟨r.state, outs ++ r.outputs, r.remaining, r.outcome⟩
      | (st2, outs, Ctl.advanced) => ⟨st2, outs, rest, AskOutcome.advanced⟩
      | (st2, outs, Ctl.restarted) => ⟨st2, outs, rest, AskOutcome.restarted⟩
      | (st2, outs, Ctl.quitRun) => ⟨st2, outs, rest, AskOutcome.quitRun⟩
      | (st2, outs, Ctl.crashed) => ⟨st2, outs, rest, AskOutcome.crashed⟩

/-- The header `Quiz.ask_question` prints before its loop (lines 163-169):
optional truthy title/subtitle, the 1-based question number with the prompt
text, and the numbered option lines. -/
def questionHeader (idx : Nat) (q : Qdict) : List Str :=
  (match dictGet q keyTitle with
   | some v => if pyTruthy v then [("\n").toList ++ pyStr v] else []
   | none => []) ++
  (match dictGet q keySubtitle with
   | some v => if pyTruthy v then [pyStr v] else []
   | none => []) ++
  [("\nQuestion ").toList ++ natStr (idx + 1) ++ (": ").toList ++ pyStr (qText q)] ++
  (qOptions q).enum.map (fun p => natStr (p.1 + 1) ++ (". ").toList ++ pyStr p.2)

/-- quiz_core.py, `Quiz.display_quiz_info` (lines 148-155): one line per
metadata field, emitted only when the field is present and truthy (an
absent key and an empty string are both skipped); the title is wrapped in
`=== ... ===`. -/
def displayQuizInfo (info : QuizInfo) : List Str :=
  (match info.title with
   | some t => if t.isEmpty then [] else [("=== ").toList ++ t ++ (" ===").toList]
   | none => []) ++
  (match info.subtitle with
   | some s => if s.isEmpty then [] else [s]
   | none => []) ++
  (match info.description with
   | some d => if d.isEmpty then [] else [d]
   | none => [])

def scoreLine (correct total : Nat) : Str :=
  ("Your score: ").toList ++ natStr correct ++ ("/").toList ++ natStr total

/-- quiz_core.py, `Quiz.show_results` (lines 217-227). -/
def showResults (st : SState) : List Str :=
  [("\nQuiz Completed!").toList] ++
  [scoreLine st.correctAnswers st.questions.length] ++
  (if st.incorrectQuestions.isEmpty then []
   else [("\nYou missed the following questions:").toList] ++
     st.incorrectQuestions.map (fun q => ("- ").toList ++ pyStr (qText q))) ++
  (if st.skippedQuestions.isEmpty then []
   else [("\nSkipped questions: ").toList ++ natStr st.skippedQuestions.length])

/-- How the run ended.  `crashed` is the unhandled `ValueError` propagating
out of the whole program. -/
inductive RunEnd
  | completed
  | quitted
  | inputExhausted
  | crashed
deriving DecidableEq

structure RunOutcome where
  state : SState
  outputs : List Str
  remaining : List Str
  asked : List Qdict
  ending : RunEnd

/-- The `while self.question_index < len(...)` loop of `Quiz.start`
(lines 141-144), with explicit fuel for structural recursion.  Every
iteration that recurses first runs `askLoop`, which consumes at least one
input line, so `inputs.length + 1` units of fuel always reach a terminal
branch; the zero-fuel equation is never taken by `quizLoop` below.  After
`ask_question` returns, `question_index` is incremented - also when the
return came from a `restart`, which is why the first question of a
post-restart pass is skipped.  `asked` records every question passed to
`ask_question`. -/
def quizLoopFuel (shuffle : Nat → List Qdict → List Qdict) :
    Nat → SState → List Str → RunOutcome
  | 0, st, inputs => ⟨st, [], inputs, [], RunEnd.inputExhausted⟩
  | fuel + 1, st, inputs =>
      if st.questionIndex < st.questions.length then
        let q := st.questions.getD st.questionIndex []
        let hd := questionHeader st.questionIndex q
        match askLoop shuffle q st inputs with
        | ⟨st2, outs, rem, AskOutcome.advanced⟩ =>
            let r := quizLoopFuel shuffle fuel
              { st2 with questionIndex := st2.questionIndex + 1 } rem
            ⟨r.state, hd ++ outs ++ r.outputs, r.remaining, q :: r.asked, r.ending⟩
        | ⟨st2, outs, rem, AskOutcome.restarted⟩ =>
            let r := quizLoopFuel shuffle fuel
              { st2 with questionIndex := st2.questionIndex + 1 } rem
            ⟨r.state, hd ++ outs ++ r.outputs, r.remaining, q :: r.asked, r.ending⟩
        | ⟨st2, outs, rem, AskOutcome.quitRun⟩ =>
            ⟨st2, hd ++ outs, rem, [q], RunEnd.quitted⟩
        | ⟨st2, outs, rem, AskOutcome.crashed⟩ =>
            ⟨st2, hd ++ outs, rem, [q], RunEnd.crashed⟩
        | ⟨st2, outs, rem, AskOutcome.exhausted⟩ =>
            ⟨st2, hd ++ outs, rem, [q], RunEnd.inputExhausted⟩
      else ⟨st, [], inputs, [], RunEnd.completed⟩

def quizLoop (shuffle : Nat → List Qdict → List Qdict) (st : SState)
    (inputs : List Str) : RunOutcome :=
  quizLoopFuel shuffle (inputs.length + 1) st inputs

/-- quiz_core.py, `Quiz.start` (lines 137-146): print the metadata, shuffle
the question list, run the per-question loop, and on normal completion show
the results (`quit` exits the process from inside `ask_question`, before
`show_results`). -/
def startQuiz (shuffle : Nat → List Qdict → List Qdict) (info : QuizInfo)
    (questions : List Qdict) (inputs : List Str) : RunOutcome :=
  let st0 : SState :=
    { questions := shuffle 0 questions
      correctAnswers := 0
      incorrectQuestions := []
      skippedQuestions := []
      questionIndex := 0
      shuffleCount := 1 }
  let r := quizLoop shuffle st0 inputs
  match r.ending with
  | RunEnd.completed =>
      ⟨r.state, displayQuizInfo info ++ r.outputs ++ showResults r.state,
        r.remaining, r.asked, RunEnd.completed⟩
  | e => ⟨r.state, displayQuizInfo info ++ r.outputs, r.remaining, r.asked, e⟩

/-! ## Concrete fixtures used by the scenario claims -/

/-- The sample one-question quiz of the spec scenarios: options 3/4/5,
correct option 2. -/
def q1 : Qdict :=
  [(keyQuestion, Value.vStr (("What is 2 + 2?").toList)),
   (keyOptions, Value.vList [Value.vStr (("3").toList), Value.vStr (("4").toList),
      Value.vStr (("5").toList)]),
   (keyCorrect, Value.vInt 2)]

/-- The identity permutation family.  On an empty or one-element question
list every permutation is the identity, so it stands in for `random.shuffle`
without loss of generality in the concrete scenario runs. -/
def idShuffle : Nat → List Qdict → List Qdict := fun _ l => l

def info0 : QuizInfo := ⟨none, none, none⟩

/-- A syntactically well-formed question whose options list contains
non-string elements. -/
def badQuestion : Qdict :=
  [(keyQuestion, Value.vStr (("q").toList)),
   (keyOptions, Value.vList [Value.vInt 1, Value.vInt 2]),
   (keyCorrect, Value.vInt 1)]

/-- The scenario text of the sanitization claim. -/
def s0 : Str := ("Invalid <script>").toList

/-- A question owning the scenario text `s0`. -/
def q3owner : Qdict :=
  [(keyQuestion, Value.vStr s0),
   (keyOptions, Value.vList [Value.vStr (("a").toList)]),
   (keyCorrect, Value.vInt 1)]

/-- An out-of-bounds text (length 1001) containing a disallowed character. -/
def longBad : Str := '<' :: List.replicate 1000 'a'

/-- Text-validity predicate of the reject policy: length within bounds and
no disallowed character. -/
def goodTextB (s : Str) : Bool :=
  (decide (1 ≤ s.length) && decide (s.length ≤ maxTextLength)) && !hasDisallowed s

/-- Every string directly in the value, and every string one level inside a
list value, passes `goodTextB`. -/
def valueStringsGoodB : Value → Bool
  | Value.vStr s => goodTextB s
  | Value.vList xs =>
      xs.all (fun v => match v with | Value.vStr s => goodTextB s | _ => true)
  | Value.vInt _ => true

/-- Every string-valued field, and every string inside a list-valued field,
passes `goodTextB`. -/
def allStringsGoodB (q : Qdict) : Bool := q.all (fun p => valueStringsGoodB p.2)

/-! ## Helper lemmas -/

theorem aliasDisj12 : ∀ l : Str, l ∈ [("restart").toList, ("r").toList] →
    l ∈ [("skip").toList, ("s").toList, ("n").toList, ("next").toList] → False := by
  intro l h1 h2
  simp only [List.mem_cons, List.mem_nil_iff, or_false] at h1
  rcases h1 with rfl | rfl <;> revert h2 <;> decide

theorem aliasDisj13 : ∀ l : Str, l ∈ [("restart").toList, ("r").toList] →
    l ∈ [("quit").toList, ("q").toList] → False := by
  intro l h1 h2
  simp only [List.mem_cons, List.mem_nil_iff, or_false] at h1
  rcases h1 with rfl | rfl <;> revert h2 <;> decide

theorem aliasDisj14 : ∀ l : Str, l ∈ [("restart").toList, ("r").toList] →
    l ∈ [("help").toList, ("h").toList, ("?").toList] → False := by
  intro l h1 h2
  simp only [List.mem_cons, List.mem_nil_iff, or_false] at h1
  rcases h1 with rfl | rfl <;> revert h2 <;> decide

theorem aliasDisj23 : ∀ l : Str,
    l ∈ [("skip").toList, ("s").toList, ("n").toList, ("next").toList] →
    l ∈ [("quit").toList, ("q").toList] → False := by
  intro l h1 h2
  simp only [List.mem_cons, List.mem_nil_iff, or_false] at h1
  rcases h1 with rfl | rfl | rfl | rfl <;> revert h2 <;> decide

theorem aliasDisj24 : ∀ l : Str,
    l ∈ [("skip").toList, ("s").toList, ("n").toList, ("next").toList] →
    l ∈ [("help").toList, ("h").toList, ("?").toList] → False := by
  intro l h1 h2
  simp only [List.mem_cons, List.mem_nil_iff, or_false] at h1
  rcases h1 with rfl | rfl | rfl | rfl <;> revert h2 <;> decide

theorem aliasDisj34 : ∀ l : Str, l ∈ [("quit").toList, ("q").toList] →
    l ∈ [("help").toList, ("h").toList, ("?").toList] → False := by
  intro l h1 h2
  simp only [List.mem_cons, List.mem_nil_iff, or_false] at h1
  rcases h1 with rfl | rfl <;> revert h2 <;> decide

theorem hasDisallowed_filter (s : Str) :
    hasDisallowed (s.filter (fun c => !isDisallowedChar c)) = false := by
  rw [hasDisallowed, List.any_eq_false]
  intro c hc
  rw [List.mem_filter] at hc
  simpa using hc.2

theorem hasDisallowed_replace (s : Str) :
    hasDisallowed (s.map (fun c => if isDisallowedChar c then qmark else c)) = false := by
  rw [hasDisallowed, List.any_map, List.any_eq_false]
  intro c _
  simp only [Function.comp_apply]
  by_cases h : isDisallowedChar c = true
  · rw [if_pos h]; decide
  · rw [if_neg h]; simpa using h

theorem sanitizeText_reject (s t : Str) (h : sanitizeText Policy.reject s = some t) :
    t = s ∧ goodTextB s = true := by
  rw [sanitizeText] at h
  by_cases hb : 1 ≤ s.length ∧ s.length ≤ maxTextLength
  · rw [if_pos hb] at h
    by_cases hd : hasDisallowed s = true
    · rw [if_pos hd] at h; exact absurd h (by simp)
    · rw [if_neg hd] at h
      refine ⟨(Option.some_inj.mp h).symm, ?_⟩
      have hdf : hasDisallowed s = false := by simpa using hd
      simp [goodTextB, hb.1, hb.2, hdf]
  · rw [if_neg hb, if_pos rfl] at h
    exact absurd h (by simp)
theorem sanitizeTextValue_reject (v w : Value)
    (h : sanitizeTextValue Policy.reject v = Except.ok (some w)) :
    ∃ s, v = Value.vStr s ∧ w = Value.vStr s ∧ goodTextB s = true := by
  cases v with
  | vStr s =>
      rw [sanitizeTextValue] at h
      cases hst : sanitizeText Policy.reject s with
      | none => rw [hst] at h; exact absurd h (by simp)
      | some t =>
          rw [hst] at h
          obtain ⟨hts, hgood⟩ := sanitizeText_reject s t hst
          refine ⟨s, rfl, ?_, hgood⟩
          simp only [Option.map_some'] at h
          cases h; cases hts; rfl
  | vList xs =>
      rw [sanitizeTextValue] at h
      by_cases hb : 1 ≤ xs.length ∧ xs.length ≤ maxTextLength
      · rw [if_pos hb] at h; exact absurd h (by simp)
      · rw [if_neg hb, if_pos rfl] at h; exact absurd h (by simp)
  | vInt n => exact absurd h (by simp [sanitizeTextValue])

theorem sanitizeElems_reject (xs : List Value) :
    ∀ ws, sanitizeElems Policy.reject xs = Except.ok (some ws) →
    ws = xs ∧ ∀ v ∈ xs, ∃ s, v = Value.vStr s ∧ goodTextB s = true := by
  induction xs with
  | nil =>
      intro ws h
      rw [sanitizeElems] at h
      refine ⟨by cases h; rfl, by intro v hv; exact absurd hv (by simp)⟩
  | cons v vs ih =>
      intro ws h
      rw [sanitizeElems] at h
      cases hv : sanitizeTextValue Policy.reject v with
      | error e => rw [hv] at h; exact absurd h (by simp)
      | ok ov =>
          rw [hv] at h
          cases ov with
          | none => exact absurd h (by simp)
          | some w =>
              cases hvs : sanitizeElems Policy.reject vs with
              | error e => rw [hvs] at h; exact absurd h (by simp)
              | ok ovs =>
                  rw [hvs] at h
                  cases ovs with
                  | none => exact absurd h (by simp)
                  | some wsTail =>
                      simp only [Except.ok.injEq, Option.some.injEq] at h
                      obtain ⟨s, rfl, rfl, hgood⟩ := sanitizeTextValue_reject v w hv
                      obtain ⟨hws, hall⟩ := ih wsTail hvs
                      subst hws
                      constructor
                      · rw [← h]
                      · intro u hu
                        rcases List.mem_cons.mp hu with rfl | hu
                        · exact ⟨s, rfl, hgood⟩
                        · exact hall u hu

theorem sanitizeQuestion_reject (q : Qdict) :
    ∀ sq, sanitizeQuestion Policy.reject q = Except.ok (some sq) →
    sq = q ∧ allStringsGoodB q = true := by
  induction q with
  | nil =>
      intro sq h
      rw [sanitizeQuestion] at h
      exact ⟨by cases h; rfl, rfl⟩
  | cons kv rest ih =>
      intro sq h
      obtain ⟨k, v⟩ := kv
      cases v with
      | vStr s =>
          rw [sanitizeQuestion] at h
          cases hst : sanitizeText Policy.reject s with
          | none => rw [hst] at h; exact absurd h (by simp)
          | some t =>
              rw [hst] at h
              cases hrest : sanitizeQuestion Policy.reject rest with
              | error e => rw [hrest] at h; exact absurd h (by simp)
              | ok orest =>
                  rw [hrest] at h
                  cases orest with
                  | none => exact absurd h (by simp)
                  | some restQ =>
                      simp only [Except.ok.injEq, Option.some.injEq] at h
                      obtain ⟨hts, hgood⟩ := sanitizeText_reject s t hst
                      obtain ⟨hrq, hallrest⟩ := ih restQ hrest
                      subst hts hrq
                      constructor
                      · rw [← h]
                      · simp [allStringsGoodB, valueStringsGoodB, hgood]
                        simpa [allStringsGoodB] using hallrest
      | vList xs =>
          rw [sanitizeQuestion] at h
          cases hel : sanitizeElems Policy.reject xs with
          | error e => rw [hel] at h; exact absurd h (by simp)
          | ok oel =>
              rw [hel] at h
              cases oel with
              | none => exact absurd h (by simp)
              | some ws =>
                  cases hrest : sanitizeQuestion Policy.reject rest with
                  | error e => rw [hrest] at h; exact absurd h (by simp)
                  | ok orest =>
                      rw [hrest] at h
                      cases orest with
                      | none => exact absurd h (by simp)
                      | some restQ =>
                          simp only [Except.ok.injEq, Option.some.injEq] at h
                          obtain ⟨hws, hallxs⟩ := sanitizeElems_reject xs ws hel
                          obtain ⟨hrq, hallrest⟩ := ih restQ hrest
                          subst hws hrq
                          constructor
                          · rw [← h]
                          · simp only [allStringsGoodB, List.all_cons, Bool.and_eq_true]
                            constructor
                            · simp only [valueStringsGoodB, List.all_eq_true]
                              intro v hv
                              obtain ⟨s, rfl, hgood⟩ := hallxs v hv
                              exact hgood
                            · simpa [allStringsGoodB] using hallrest
      | vInt n =>
          rw [sanitizeQuestion] at h
          cases hrest : sanitizeQuestion Policy.reject rest with
          | error e => rw [hrest] at h; exact absurd h (by simp)
          | ok orest =>
              rw [hrest] at h
              cases orest with
              | none => exact absurd h (by simp)
              | some restQ =>
                  simp only [Except.ok.injEq, Option.some.injEq] at h
                  obtain ⟨hrq, hallrest⟩ := ih restQ hrest
                  subst hrq
                  constructor
                  · rw [← h]
                  · simp only [allStringsGoodB, List.all_cons, Bool.and_eq_true]
                    exact ⟨rfl, by simpa [allStringsGoodB] using hallrest⟩

theorem loadQuestionsAux_reject_mem (raws : List Qdict) :
    ∀ acc qs, loadQuestionsAux Policy.reject acc raws = Except.ok qs →
    ∀ q ∈ qs, q ∈ acc ∨ (q ∈ raws ∧ allStringsGoodB q = true) := by
  induction raws with
  | nil =>
      intro acc qs h q hq
      rw [loadQuestionsAux] at h
      cases h
      exact Or.inl hq
  | cons raw rest ih =>
      intro acc qs h q hq
      rw [loadQuestionsAux] at h
      cases hsan : sanitizeQuestion Policy.reject raw with
      | error e => rw [hsan] at h; exact absurd h (by simp)
      | ok osan =>
          rw [hsan] at h
          cases osan with
          | none =>
              rcases ih acc qs h q hq with hacc | ⟨hmem, hgood⟩
              · exact Or.inl hacc
              · exact Or.inr ⟨List.mem_cons_of_mem _ hmem, hgood⟩
          | some sq =>
              dsimp only at h
              by_cases hkeep : (!sq.isEmpty && validateQuestion sq) = true
              · rw [if_pos hkeep] at h
                rcases ih (acc ++ [sq]) qs h q hq with hacc | ⟨hmem, hgood⟩
                · rcases List.mem_append.mp hacc with hl | hr
                  · exact Or.inl hl
                  · obtain ⟨hsq, hgoodraw⟩ := sanitizeQuestion_reject raw sq hsan
                    subst hsq
                    rcases List.mem_singleton.mp hr with rfl
                    exact Or.inr ⟨List.mem_cons_self _ _, hgoodraw⟩
                · exact Or.inr ⟨List.mem_cons_of_mem _ hmem, hgood⟩
              · rw [if_neg hkeep] at h
                rcases ih acc qs h q hq with hacc | ⟨hmem, hgood⟩
                · exact Or.inl hacc
                · exact Or.inr ⟨List.mem_cons_of_mem _ hmem, hgood⟩

theorem loadQuestionsAux_valid (policy : Policy) (raws : List Qdict) :
    ∀ acc qs, loadQuestionsAux policy acc raws = Except.ok qs →
    (∀ q ∈ acc, validateQuestion q = true) →
    ∀ q ∈ qs, validateQuestion q = true := by
  induction raws with
  | nil =>
      intro acc qs h hacc q hq
      rw [loadQuestionsAux] at h
      cases h
      exact hacc q hq
  | cons raw rest ih =>
      intro acc qs h hacc q hq
      rw [loadQuestionsAux] at h
      cases hsan : sanitizeQuestion policy raw with
      | error e => rw [hsan] at h; exact absurd h (by simp)
      | ok osan =>
          rw [hsan] at h
          cases osan with
          | none => exact ih acc qs h hacc q hq
          | some sq =>
              dsimp only at h
              by_cases hkeep : (!sq.isEmpty && validateQuestion sq) = true
              · rw [if_pos hkeep] at h
                refine ih (acc ++ [sq]) qs h ?_ q hq
                intro u hu
                rcases List.mem_append.mp hu with hl | hr
                · exact hacc u hl
                · rcases List.mem_singleton.mp hr with rfl
                  have hk2 := hkeep
                  rw [Bool.and_eq_true] at hk2
                  exact hk2.2
              · rw [if_neg hkeep] at h
                exact ih acc qs h hacc q hq

theorem loadQuestions_sub (policy : Policy) (qlen : Nat) (raws qs : List Qdict)
    (h : loadQuestions policy qlen raws = Except.ok qs) :
    ∃ qs0, loadQuestionsAux policy [] raws = Except.ok qs0 ∧ ∀ q ∈ qs, q ∈ qs0 := by
  rw [loadQuestions] at h
  cases haux : loadQuestionsAux policy [] raws with
  | error e => rw [haux] at h; exact absurd h (by simp)
  | ok qs0 =>
      rw [haux] at h
      refine ⟨qs0, rfl, ?_⟩
      simp only [Except.ok.injEq] at h
      subst h
      by_cases hcap : 0 < qlen ∧ qlen < qs0.length
      · rw [if_pos hcap]
        intro q hq
        exact List.take_subset _ _ hq
      · rw [if_neg hcap]
        intro q hq
        exact hq

theorem askStep_questions_perm (shuffle : Nat → List Qdict → List Qdict)
    (hsh : ∀ n l, (shuffle n l).Perm l) (q : Qdict) (st : SState) (line : Str) :
    ((askStep shuffle q st line).1).questions.Perm st.questions := by
  simp only [askStep]
  repeat' split
  all_goals first
    | exact List.Perm.refl _
    | exact hsh _ _

theorem askLoop_questions_perm (shuffle : Nat → List Qdict → List Qdict)
    (hsh : ∀ n l, (shuffle n l).Perm l) (q : Qdict) :
    ∀ (inputs : List Str) (st : SState),
      ((askLoop shuffle q st inputs).state).questions.Perm st.questions := by
  intro inputs
  induction inputs with
  | nil => intro st; rw [askLoop]
  | cons line rest ih =>
      intro st
      rw [askLoop]
      rcases hstep : askStep shuffle q st line with ⟨st2, outs, ctl⟩
      have hstq : st2.questions.Perm st.questions := by
        have hp := askStep_questions_perm shuffle hsh q st line
        rw [hstep] at hp
        exact hp
      cases ctl
      · exact (ih st2).trans hstq
      · exact hstq
      · exact hstq
      · exact hstq
      · exact hstq

theorem quizLoopFuel_asked_valid (shuffle : Nat → List Qdict → List Qdict)
    (hsh : ∀ n l, (shuffle n l).Perm l) (qs0 : List Qdict)
    (hval : ∀ q ∈ qs0, validateQuestion q = true) :
    ∀ (fuel : Nat) (st : SState) (inputs : List Str),
      st.questions.Perm qs0 →
      ∀ q ∈ (quizLoopFuel shuffle fuel st inputs).asked, validateQuestion q = true := by
  intro fuel
  induction fuel with
  | zero =>
      intro st inputs hperm q hq
      rw [quizLoopFuel] at hq
      exact absurd hq (by simp)
  | succ fuel ih =>
      intro st inputs hperm q hq
      simp only [quizLoopFuel] at hq
      by_cases hidx : st.questionIndex < st.questions.length
      · rw [if_pos hidx] at hq
        have hqcur_mem : st.questions.getD st.questionIndex [] ∈ st.questions := by
          rw [List.getD_eq_getElem st.questions [] hidx]
          exact List.getElem_mem hidx
        have hqcur_valid :
            validateQuestion (st.questions.getD st.questionIndex []) = true :=
          hval _ (hperm.mem_iff.mp hqcur_mem)
        rcases hask : askLoop shuffle (st.questions.getD st.questionIndex []) st inputs
          with ⟨st2, outs, rem, oc⟩
        rw [hask] at hq
        have hst2 : st2.questions.Perm qs0 := by
          have hp := askLoop_questions_perm shuffle hsh
            (st.questions.getD st.questionIndex []) inputs st
          rw [hask] at hp
          exact hp.trans hperm
        cases oc <;> dsimp only at hq
        · rcases List.mem_cons.mp hq with rfl | htail
          · exact hqcur_valid
          · exact ih { st2 with questionIndex := st2.questionIndex + 1 } rem hst2 q htail
        · rcases List.mem_cons.mp hq with rfl | htail
          · exact hqcur_valid
          · exact ih { st2 with questionIndex := st2.questionIndex + 1 } rem hst2 q htail
        · rcases List.mem_singleton.mp hq with rfl
          exact hqcur_valid
        · rcases List.mem_singleton.mp hq with rfl
          exact hqcur_valid
        · rcases List.mem_singleton.mp hq with rfl
          exact hqcur_valid
      · rw [if_neg hidx] at hq
        exact absurd hq (by simp)


/-! ## Claim theorems -/

/-- C1: the claim says a restart resets the counters and the cursor to zero
and resumes the loop from cursor 0, so that on the one-question quiz with
inputs restart then 2 the final score reflects the answer 2.  The code
instead increments the cursor after `ask_question` returns from the
restart, so the single question of the new pass is skipped: the run
completes with score 0 of 1, the input 2 is never consumed, and the score
line 0/1 is printed.  `random.shuffle` of a one-element list is the
identity permutation, so `idShuffle` stands in for it without loss of
generality. -/
theorem c1_restart_skips_first_question_of_new_pass :
    (startQuiz idShuffle info0 [q1]
      [("restart").toList, ("2").toList]).state.correctAnswers = 0 ∧
    (startQuiz idShuffle info0 [q1]
      [("restart").toList, ("2").toList]).remaining = [("2").toList] ∧
    (startQuiz idShuffle info0 [q1]
      [("restart").toList, ("2").toList]).ending = RunEnd.completed ∧
    scoreLine 0 1 ∈ (startQuiz idShuffle info0 [q1]
      [("restart").toList, ("2").toList]).outputs := by
  refine ⟨rfl, rfl, rfl, ?_⟩
  decide

/-- C2: the claim says an empty accepted-question sequence makes the engine
report that no questions are available and print no score line with a
division.  The code run on an empty sequence completes normally, prints the
score line 0/0 (which contains the division slash), and never prints the
no-questions message its own test expects.  A permutation of the empty list
is the empty list, so `idShuffle` stands in for the shuffle. -/
theorem c2_empty_quiz_prints_division_score :
    (startQuiz idShuffle info0 [] ([] : List Str)).ending = RunEnd.completed ∧
    scoreLine 0 0 ∈ (startQuiz idShuffle info0 [] ([] : List Str)).outputs ∧
    '/' ∈ scoreLine 0 0 ∧
    (("No questions available.").toList) ∉
      (startQuiz idShuffle info0 [] ([] : List Str)).outputs := by
  refine ⟨rfl, ?_, ?_, ?_⟩ <;> decide

/-- C3 counterexample: under the remove policy, sanitizing the scenario text
does not yield the claimed result (only the two angle-bracket characters are
deleted, not the word between them). -/
theorem c3_counterexample :
    sanitizeText Policy.remove s0 ≠ some (("Invalid ").toList) := by decide

/-- C3 amended: under remove the scenario text sanitizes to the text with
each angle bracket deleted; under replace each angle bracket becomes a
question mark; under reject the owning question is dropped entirely (no
record produced by the loader). -/
theorem c3_sanitize_scenario_amended :
    sanitizeText Policy.remove s0 = some (("Invalid script").toList) ∧
    sanitizeText Policy.replace s0 = some (("Invalid ?script?").toList) ∧
    sanitizeQuestion Policy.reject q3owner = Except.ok none ∧
    loadQuestions Policy.reject 0 [q3owner] = Except.ok [] := by
  exact ⟨by decide, by decide, rfl, rfl⟩

/-- C4: the claim says the loader never aborts on an invalid question, e.g.
one whose list field holds non-string elements.  The code applies
`sanitize_text` to every list element; on an int, `len()` raises a
`TypeError` that the loader does not catch, so the whole load aborts,
whatever the policy. -/
theorem c4_nonstring_option_aborts_load :
    ∀ p : Policy, loadQuestions p 0 [badQuestion] = Except.error LoadErr.typeError := by
  intro p; cases p <;> rfl

/-- The two malformed-input behaviours that do hold: a non-command input of
trimmed length 1..100 failing `str.isdigit` gets the invalid-input message,
and one passing `str.isdigit` whose `int()` value falls outside
1..option_count gets the invalid-option message; both leave the state
untouched and re-prompt.  (The third behaviour - `str.isdigit` passes but
`int()` has no decimal reading - aborts the run; see the C5 theorem.) -/
theorem askStep_malformed_input_reprompts
    (shuffle : Nat → List Qdict → List Qdict) (q : Qdict) (st : SState)
    (line : Str)
    (hval : validateQuestion q = true)
    (hlen : 1 ≤ (pyStrip (pyStrip line)).length ∧ (pyStrip (pyStrip line)).length ≤ 100)
    (hcmd : isCommand (pyStrip (pyStrip line)) = false) :
    (pyIsDigit (pyStrip (pyStrip line)) = false →
      askStep shuffle q st line = (st, [promptEcho line, msgInvalidInput], Ctl.reprompt)) ∧
    (∀ n, pyIsDigit (pyStrip (pyStrip line)) = true →
      pyInt (pyStrip (pyStrip line)) = some n →
      ¬(1 ≤ (n : Int) ∧ (n : Int) ≤ (qOptionCount q : Int)) →
      askStep shuffle q st line = (st, [promptEcho line, msgInvalidOption], Ctl.reprompt)) := by
  constructor
  · intro hdig
    simp only [askStep]
    rw [if_pos hlen, if_neg (by simp [hcmd]), if_neg (by simp [hdig])]
  · intro n hdig hint hrange
    simp only [askStep]
    rw [if_pos hlen, if_neg (by simp [hcmd]), if_pos (by simp [hdig]), hint]
    dsimp only
    rw [if_neg hrange]

/-- C5: the claim says every non-command input of trimmed length 1..100
that does not consist only of decimal digits gets the invalid-input message
and re-prompts the same question, and that in no failure case does the run
abort.  The superscript-two character U+00B2 is not a decimal digit, yet
`str.isdigit` accepts it, so the message branch is skipped and
`int(user_input)` raises a `ValueError` that nothing catches: the state is
dropped, no message is printed, and the whole run aborts - against the
claim and against the recoverable classification of malformed user input in
the spec error-handling design. -/
theorem c5_digit_without_decimal_value_aborts_run :
    isCommand [sup2] = false ∧
    pyStrip (pyStrip [sup2]) = [sup2] ∧
    pyCharIsDigit sup2 = true ∧
    pyCharDecimalVal sup2 = none ∧
    askStep idShuffle q1 ⟨[q1], 0, [], [], 0, 1⟩ [sup2] =
      (⟨[q1], 0, [], [], 0, 1⟩, [promptEcho [sup2]], Ctl.crashed) ∧
    (startQuiz idShuffle info0 [q1] [[sup2]]).ending = RunEnd.crashed := by
  refine ⟨by decide, by decide, by decide, by decide, rfl, rfl⟩

set_option maxRecDepth 100000 in
/-- C6 counterexample: sanitization is not idempotent on an out-of-bounds
text.  A 1001-character text containing a disallowed character is truncated
and returned with the character still present; only the second application
removes it. -/
theorem c6_counterexample :
    (sanitizeText Policy.remove longBad).bind (sanitizeText Policy.remove) ≠
      sanitizeText Policy.remove longBad := by decide

/-- C6 amended: under remove and replace, applying `sanitize_text` twice
equals applying it once for every text of length at most 1000 (the
sanitized output contains no further removable characters).  Texts longer
than 1000 characters are truncated and returned at once, without the
substitution step, so idempotence can fail for them. -/
theorem c6_idempotent_on_inbounds_text (p : Policy) (s : Str)
    (hp : p = Policy.remove ∨ p = Policy.replace)
    (hlen : s.length ≤ maxTextLength) :
    (sanitizeText p s).bind (sanitizeText p) = sanitizeText p s := by
  rcases hp with rfl | rfl
  · by_cases h0 : 1 ≤ s.length
    · simp only [sanitizeText]
      rw [if_pos ⟨h0, hlen⟩]
      by_cases hd : hasDisallowed s = true
      · rw [if_pos hd]
        simp only [Option.some_bind]
        have hnd : hasDisallowed (s.filter (fun c => !isDisallowedChar c)) = false :=
          hasDisallowed_filter s
        by_cases h1 : 1 ≤ (s.filter (fun c => !isDisallowedChar c)).length
        · rw [if_pos ⟨h1, le_trans (s.length_filter_le _) hlen⟩, if_neg (by simp [hnd])]
        · have hnil : s.filter (fun c => !isDisallowedChar c) = [] := by
            rw [← List.length_eq_zero]; omega
          rw [hnil]
          decide
      · rw [if_neg hd]
        simp only [Option.some_bind]
        rw [if_pos ⟨h0, hlen⟩, if_neg hd]
    · have hs : s = [] := by rw [← List.length_eq_zero]; omega
      subst hs; decide
  · by_cases h0 : 1 ≤ s.length
    · simp only [sanitizeText]
      rw [if_pos ⟨h0, hlen⟩]
      by_cases hd : hasDisallowed s = true
      · rw [if_pos hd]
        simp only [Option.some_bind]
        have hnd := hasDisallowed_replace s
        rw [if_pos ⟨by simpa using h0, by simpa using hlen⟩, if_neg (by simp [hnd])]
      · rw [if_neg hd]
        simp only [Option.some_bind]
        rw [if_pos ⟨h0, hlen⟩, if_neg hd]
    · have hs : s = [] := by rw [← List.length_eq_zero]; omega
      subst hs; decide

/-- Witness for C6 amended at a concrete in-bounds text. -/
theorem c6_idempotent_on_inbounds_text_witness :
    (sanitizeText Policy.remove (("a<b").toList)).bind (sanitizeText Policy.remove) =
      sanitizeText Policy.remove (("a<b").toList) :=
  c6_idempotent_on_inbounds_text Policy.remove (("a<b").toList) (Or.inl rfl) (by decide)

/-- C7: under the reject policy every question in the accepted sequence is
one of the raw source questions, kept verbatim, and all of its string-valued
fields and all strings inside its list-valued fields were in bounds
(length 1..1000) and free of angle brackets in the raw source. -/
theorem c7_reject_policy_never_retains_bad_text (qlen : Nat) (raws qs : List Qdict)
    (hload : loadQuestions Policy.reject qlen raws = Except.ok qs) :
    ∀ q ∈ qs, q ∈ raws ∧ allStringsGoodB q = true := by
  obtain ⟨qs0, haux, hsub⟩ := loadQuestions_sub Policy.reject qlen raws qs hload
  intro q hq
  rcases loadQuestionsAux_reject_mem raws [] qs0 haux q (hsub q hq) with hnil | hgood
  · exact absurd hnil (List.not_mem_nil q)
  · exact hgood

/-- Witness for C7: the sample question is accepted under reject and indeed
has only good text fields. -/
theorem c7_reject_policy_never_retains_bad_text_witness :
    q1 ∈ [q1] ∧ allStringsGoodB q1 = true :=
  c7_reject_policy_never_retains_bad_text 0 [q1] [q1] rfl q1
    (List.mem_singleton.mpr rfl)

/-- C8: every question accepted by the loader validates (the three required
fields are present, the option list is non-empty and the 1-based correct
index is within it), and every question the session engine presents during
a whole run - under any family of shuffles that permute the list - is an
accepted question and therefore validates; accepted records are never
mutated, the engine only permutes the list. -/
theorem c8_accepted_and_presented_questions_valid (policy : Policy) (qlen : Nat)
    (raws qs : List Qdict) (shuffle : Nat → List Qdict → List Qdict)
    (info : QuizInfo) (inputs : List Str)
    (hload : loadQuestions policy qlen raws = Except.ok qs)
    (hsh : ∀ n l, (shuffle n l).Perm l) :
    (∀ q ∈ qs, validateQuestion q = true) ∧
    (∀ q ∈ (startQuiz shuffle info qs inputs).asked, validateQuestion q = true) := by
  have hvalid : ∀ q ∈ qs, validateQuestion q = true := by
    obtain ⟨qs0, haux, hsub⟩ := loadQuestions_sub policy qlen raws qs hload
    intro q hq
    exact loadQuestionsAux_valid policy raws [] qs0 haux
      (by intro u hu; exact absurd hu (List.not_mem_nil u)) q (hsub q hq)
  refine ⟨hvalid, ?_⟩
  have hasked : ∀ q ∈ (quizLoop shuffle
      { questions := shuffle 0 qs, correctAnswers := 0, incorrectQuestions := [],
        skippedQuestions := [], questionIndex := 0, shuffleCount := 1 } inputs).asked,
      validateQuestion q = true := by
    intro q hq
    exact quizLoopFuel_asked_valid shuffle hsh qs hvalid _ _ inputs (hsh 0 qs) q hq
  intro q hq
  simp only [startQuiz] at hq
  split at hq
  · exact hasked q hq
  · exact hasked q hq

/-- Witness for C8: on the sample run the question presented first is
accepted and validates. -/
theorem c8_accepted_and_presented_questions_valid_witness :
    validateQuestion q1 = true :=
  (c8_accepted_and_presented_questions_valid Policy.reject 0 [q1] [q1] idShuffle
    info0 [("2").toList] rfl (fun _ l => List.Perm.refl l)).2 q1
    (List.mem_singleton.mpr rfl)

/-- C9: command resolution lowercases its input and is total: it returns
restart exactly on the case-variants of restart and r, skip on those of
skip, s, n and next, quit on those of quit and q, help on those of help, h
and the question mark, and none on every other string; the alias predicate
agrees with the resolver. -/
theorem c9_command_resolution_total_case_insensitive (s : Str) :
    (processCommand s = some Command.restart ↔
      pyLower s ∈ [("restart").toList, ("r").toList]) ∧
    (processCommand s = some Command.skip ↔
      pyLower s ∈ [("skip").toList, ("s").toList, ("n").toList, ("next").toList]) ∧
    (processCommand s = some Command.quit ↔
      pyLower s ∈ [("quit").toList, ("q").toList]) ∧
    (processCommand s = some Command.help ↔
      pyLower s ∈ [("help").toList, ("h").toList, ("?").toList]) ∧
    (isCommand s = (processCommand s).isSome) := by
  simp only [processCommand, isCommand, commands]
  generalize pyLower s = l
  by_cases h1 : l ∈ [("restart").toList, ("r").toList] <;>
  by_cases h2 : l ∈ [("skip").toList, ("s").toList, ("n").toList, ("next").toList] <;>
  by_cases h3 : l ∈ [("quit").toList, ("q").toList] <;>
  by_cases h4 : l ∈ [("help").toList, ("h").toList, ("?").toList] <;>
  first
  | exact (aliasDisj12 l h1 h2).elim
  | exact (aliasDisj13 l h1 h3).elim
  | exact (aliasDisj14 l h1 h4).elim
  | exact (aliasDisj23 l h2 h3).elim
  | exact (aliasDisj24 l h2 h4).elim
  | exact (aliasDisj34 l h3 h4).elim
  | (simp only [List.mem_cons, List.mem_nil_iff, or_false] at h1
     rcases h1 with rfl | rfl <;> decide)
  | (simp only [List.mem_cons, List.mem_nil_iff, or_false] at h2
     rcases h2 with rfl | rfl | rfl | rfl <;> decide)
  | (simp only [List.mem_cons, List.mem_nil_iff, or_false] at h3
     rcases h3 with rfl | rfl <;> decide)
  | (simp only [List.mem_cons, List.mem_nil_iff, or_false] at h4
     rcases h4 with rfl | rfl | rfl <;> decide)
  | (simp only [List.mem_cons, List.mem_nil_iff, or_false, not_or] at h1 h2 h3 h4
     simp at h1 h2 h3 h4
     obtain ⟨n1a, n1b⟩ := h1
     obtain ⟨n2a, n2b, n2c, n2d⟩ := h2
     obtain ⟨n3a, n3b⟩ := h3
     obtain ⟨n4a, n4b, n4c⟩ := h4
     simp [List.find?, List.any, n1a, n1b, n2a, n2b, n2c, n2d, n3a, n3b, n4a, n4b, n4c])

/-- C10: the metadata strings of the source document are stored verbatim by
the loader, whatever the sanitization policy; a present non-empty title is
emitted verbatim (inside the === frame) at the start of the run, before all
other output, so angle brackets or an over-long title reach the output
unchanged even under reject. -/
theorem c10_metadata_unsanitized_verbatim (policy : Policy) (qlen : Nat)
    (doc : QuizDoc) (info : QuizInfo) (qs : List Qdict)
    (hload : loadQuizData policy qlen doc = Except.ok (info, qs)) :
    info.title = doc.title ∧ info.subtitle = doc.subtitle ∧
    info.description = doc.description ∧
    (∀ t, doc.title = some t → t ≠ [] →
      (("=== ").toList ++ t ++ (" ===").toList) ∈ displayQuizInfo info) ∧
    (∀ shuffle inputs, ∃ rest,
      (startQuiz shuffle info qs inputs).outputs = displayQuizInfo info ++ rest) := by
  rw [loadQuizData] at hload
  cases hq : loadQuestions policy qlen doc.questions with
  | error e => rw [hq] at hload; exact absurd hload (by simp)
  | ok qs2 =>
      rw [hq] at hload
      simp only [Except.ok.injEq, Prod.mk.injEq] at hload
      obtain ⟨hinfo, hqs⟩ := hload
      subst hinfo
      refine ⟨rfl, rfl, rfl, ?_, ?_⟩
      · intro t ht hne
        simp only [displayQuizInfo, loadQuizInfo, ht]
        rw [if_neg (by simpa using hne)]
        exact List.mem_append_left _ (List.mem_cons_self _ _)
      · intro shuffle inputs
        simp only [startQuiz]
        split
        · exact ⟨_, by rw [List.append_assoc]⟩
        · exact ⟨_, rfl⟩

/-- Witness for C10: a title containing angle brackets survives a reject
load verbatim and appears framed in the display output. -/
theorem c10_metadata_unsanitized_verbatim_witness :
    (("=== ").toList ++ ("<x>").toList ++ (" ===").toList) ∈
      displayQuizInfo ⟨some (("<x>").toList), none, none⟩ :=
  (c10_metadata_unsanitized_verbatim Policy.reject 0
    ⟨some (("<x>").toList), none, none, []⟩ ⟨some (("<x>").toList), none, none⟩ []
    rfl).2.2.2.1 (("<x>").toList) rfl (by decide)
